import Mathlib

/-!
Verification of the locomotion and scripted-movement controller of the
`webdev-finals-achroma` repository.

The controller lives in the `FPSControls` component (teleport handler,
scripted-move handler, per-frame `useFrame` tick with velocity smoothing and
head-bob animation) and in the `tryDoorEndTeleport` routine of the Basement
scene (portal coordinate-frame mapping and facing-yaw computation).

Modelling conventions:
* JavaScript numbers are modelled as exact rationals (`ℚ`).
* `Math.PI` has no exact rational value; it is abstracted as a parameter
  `pi : ℚ` assumed positive where a theorem needs it.
* `Math.sqrt` / `Math.hypot` / `Vector3.length` are modelled with `Rat.sqrt`,
  which agrees with the real square root exactly when the radicand is the
  square of a rational (in particular on squares, which is the only case the
  theorems below rely on).
* `Math.sin` and `Math.atan2`'s arctangent branch have no rational model and
  are taken as function parameters; the code paths the claims are about never
  evaluate them at points where the value matters.
* Camera orientation is kept symbolic (`CamRot`): the controller only ever
  writes it through three operations (set yaw, quaternion slerp toward a
  look-at target, apply a touch look-delta), which are recorded as
  constructors; reading the world direction of the camera is an environment
  input to the functions that need it, mirroring `camera.getWorldDirection`.
-/

namespace Achroma

/-- 3-component vector over ℚ, modelling a three.js `Vector3`. -/
structure V3 where
  x : ℚ
  y : ℚ
  z : ℚ
deriving DecidableEq, Repr

/-- Vector addition (`Vector3.add`). -/
def vadd (a b : V3) : V3 := ⟨a.x + b.x, a.y + b.y, a.z + b.z⟩

/-- Vector subtraction (`Vector3.subVectors`). -/
def vsub (a b : V3) : V3 := ⟨a.x - b.x, a.y - b.y, a.z - b.z⟩

/-- Scalar multiple (`Vector3.multiplyScalar`). -/
def vscale (k : ℚ) (a : V3) : V3 := ⟨k * a.x, k * a.y, k * a.z⟩

/-- Cross product (`Vector3.crossVectors`). -/
def vcross (a b : V3) : V3 :=
  ⟨a.y * b.z - a.z * b.y, a.z * b.x - a.x * b.z, a.x * b.y - a.y * b.x⟩

/-- Squared length (`Vector3.lengthSq`). -/
def normSq (v : V3) : ℚ := v.x * v.x + v.y * v.y + v.z * v.z

/-- Model of the floating-point square root; exact whenever the argument is
the square of a rational. -/
def qsqrt (q : ℚ) : ℚ := Rat.sqrt q

/-- Length of a vector (`Vector3.length`). -/
def vlength (v : V3) : ℚ := qsqrt (normSq v)

/-- three.js `Vector3.normalize`: divide by `length || 1`, so the zero vector
is left unchanged. -/
def vnormalize (v : V3) : V3 :=
  let l := vlength v
  let d := if l = 0 then 1 else l
  ⟨v.x / d, v.y / d, v.z / d⟩

/-- `Math.sign`: -1, 0 or 1 according to the sign of the argument. -/
def jsSign (q : ℚ) : ℚ := if 0 < q then 1 else if q < 0 then -1 else 0

/-- `moveTowards` from the `useFrame` body of `FPSControls`:
asymmetric rate-limited blend of `current` toward `target`, using the
acceleration constant when the target magnitude exceeds the current magnitude
and the deceleration constant otherwise, with the per-tick change clamped to
`rate * delta`. -/
def moveTowards (acceleration deceleration delta current target : ℚ) : ℚ :=
  let increasing := |current| < |target|
  let rate := if increasing then acceleration else deceleration
  let maxDelta := rate * delta
  let deltaV := target - current
  if |deltaV| ≤ maxDelta then target
  else current + jsSign deltaV * maxDelta

/-- Truncation toward zero, as used by the JavaScript `%` operator. -/
def jsTrunc (q : ℚ) : ℤ := if 0 ≤ q then ⌊q⌋ else ⌈q⌉

/-- The JavaScript remainder operator `a % b` (sign follows the dividend). -/
def jsRem (a b : ℚ) : ℚ := a - b * jsTrunc (a / b)

/-- The bob-phase update of one tick (`FPSControls` `useFrame`): while
`intensity > 0.001` and the smoothed cadence exceeds `0.0001`, advance the
phase by `stepHz * 2 * pi * delta` and wrap it by `% (pi * 2)`; otherwise
leave the phase unchanged. -/
def bobPhaseStep (pi stepHz intensity delta phase : ℚ) : ℚ :=
  if 0.001 < intensity ∧ 0.0001 < stepHz then
    jsRem (phase + stepHz * 2 * pi * delta) (pi * 2)
  else phase

/-- Fold of `bobPhaseStep` over a sequence of ticks, each tick being a triple
`(stepHz, intensity, delta)`. -/
def runBobPhase (pi : ℚ) (ticks : List (ℚ × ℚ × ℚ)) (phase : ℚ) : ℚ :=
  ticks.foldl (fun ph t => bobPhaseStep pi t.1 t.2.1 t.2.2 ph) phase

/-- The `crossed` test of the footstep edge detection: threshold crossing of
the bob phase from `phFrom` to `phTo`, including the wrap-around case
`phFrom > phTo`. -/
def crossedB (phFrom phTo thr : ℚ) : Bool :=
  (decide (phFrom < thr) && decide (thr ≤ phTo)) ||
  (decide (phTo < phFrom) && (decide (phFrom < thr) || decide (thr ≤ phTo)))

/-- A footstep side. -/
inductive Foot where
  | left
  | right
deriving DecidableEq, Repr

/-- The footstep events emitted in one tick: crossing phase `0` fires a
"right" step, crossing phase `pi` fires a "left" step. -/
def stepEvents (pi phFrom phTo : ℚ) : List Foot :=
  (if crossedB phFrom phTo 0 then [Foot.right] else []) ++
  (if crossedB phFrom phTo pi then [Foot.left] else [])

/-- Symbolic camera orientation. The controller writes the orientation only
through the recorded operations; `euler yaw pitch` is a known YXZ-Euler
orientation (as after mount or after a teleport from a known state). -/
inductive CamRot where
  /-- Known YXZ-Euler orientation. -/
  | euler (yaw pitch : ℚ) : CamRot
  /-- `camera.quaternion.slerp(targetQuat, k)` where `targetQuat` looks from
  the camera toward `target` (the look-lock branch of the tick). -/
  | slerp (prev : CamRot) (target : V3) (k : ℚ) : CamRot
  /-- `camera.rotation.order = "YXZ"; camera.rotation.y = yaw`
  (the teleport handler), preserving pitch. -/
  | setYaw (prev : CamRot) (yaw : ℚ) : CamRot
  /-- Touch-look update by a consumed look delta `(dx, dy)`. -/
  | lookDelta (prev : CamRot) (dx dy : ℚ) : CamRot
deriving DecidableEq, Repr

/-- The yaw of a camera orientation when it is syntactically determined:
after a direct yaw write or from a known Euler orientation. -/
def knownYaw : CamRot → Option ℚ
  | CamRot.euler yaw _ => some yaw
  | CamRot.setYaw _ yaw => some yaw
  | CamRot.slerp _ _ _ => none
  | CamRot.lookDelta _ _ _ => none

/-- The rigid-body state the controller reads and writes through its handle. -/
structure Body where
  pos : V3
  linvel : V3
deriving DecidableEq, Repr

/-- The scripted-movement override stored in `overrideRef`. -/
structure Override where
  timeLeft : ℚ
  duration : ℚ
  speed : ℚ
  dir : V3
  lockLook : Bool
  lookAt : Option V3
  lookSlerp : Option ℚ
  moveDelayLeft : ℚ
deriving DecidableEq, Repr

/-- The head-bob state stored in `bobRef`. -/
structure BobState where
  phase : ℚ
  intensity : ℚ
  smoothedHz : ℚ
  smoothedVertical : ℚ
  smoothedLateral : ℚ
deriving DecidableEq, Repr

/-- The controller state: the (possibly absent) rigid-body handle, the
scripted override, the camera, the pointer-lock-enabled flag and the shared
movement axes of the input store. -/
structure Ctrl where
  body : Option Body
  override : Option Override
  camRot : CamRot
  camPos : V3
  plcEnabled : Bool
  axes : ℚ × ℚ
  bob : BobState
deriving DecidableEq, Repr

/-- The `detail` payload of a `__teleport_to__` event. -/
structure TeleportDetail where
  x : Option ℚ
  y : Option ℚ
  z : Option ℚ
  keepY : Bool
  yaw : Option ℚ
deriving DecidableEq, Repr

/-- The `__teleport_to__` handler of `FPSControls`: a no-op when the body
handle is absent; otherwise cancel any scripted override, zero the linear
velocity, set the body translation (keeping the current coordinate for any
missing component, and the current `y` when `keepY` is set), optionally set
the camera yaw, re-enable pointer lock and neutralize the movement axes. -/
def onTeleport (d : TeleportDetail) (s : Ctrl) : Ctrl :=
  match s.body with
  | none => s
  | some b =>
    let t := b.pos
    let nx := d.x.getD t.x
    let ny := if d.keepY then t.y else d.y.getD t.y
    let nz := d.z.getD t.z
    { s with
      override := none
      body := some { b with linvel := ⟨0, 0, 0⟩, pos := ⟨nx, ny, nz⟩ }
      camRot := match d.yaw with
        | some yw => CamRot.setYaw s.camRot yw
        | none => s.camRot
      plcEnabled := true
      axes := (0, 0) }

/-- The `detail` payload of a `__scripted_move__` event. -/
structure ScriptedDetail where
  durationSec : Option ℚ
  distance : Option ℚ
  lockLook : Option Bool
  lookAt : Option V3
  lookSlerp : Option ℚ
  moveDelaySec : Option ℚ
deriving DecidableEq, Repr

/-- The movement direction captured by the `__scripted_move__` handler:
the camera's world direction flattened to the horizontal plane, replaced by
`(0, 0, -1)` when degenerate, then normalized. `camDir` is the value read by
`camera.getWorldDirection`. -/
def captureDir (camDir : V3) : V3 :=
  let d0 : V3 := ⟨camDir.x, 0, camDir.z⟩
  let d1 := if normSq d0 < 0.000001 then (⟨0, 0, -1⟩ : V3) else d0
  vnormalize d1

/-- The `__scripted_move__` handler of `FPSControls`: clamp the duration and
distance up to at least `0.05` and the move delay down to at least `0`,
capture the flattened camera forward direction, store the override (replacing
any existing one), disable pointer lock when look-locked, and neutralize the
movement axes. The body handle is not consulted. -/
def onScriptedMove (camDir : V3) (d : ScriptedDetail) (s : Ctrl) : Ctrl :=
  let durationSec := max 0.05 (d.durationSec.getD 1.2)
  let distance := max 0.05 (d.distance.getD 1.5)
  let lockLook := d.lockLook.getD true
  { s with
    override := some
      { timeLeft := durationSec
        duration := durationSec
        speed := distance / durationSec
        dir := captureDir camDir
        lockLook := lockLook
        lookAt := d.lookAt
        lookSlerp := some (d.lookSlerp.getD 6)
        moveDelayLeft := max 0 (d.moveDelaySec.getD 0.35) }
    plcEnabled := if lockLook then false else s.plcEnabled
    axes := (0, 0) }

/-- `canMove` of the tick: free movement is always allowed without an
override; during an override it is gated by the remaining move delay. -/
def canMoveS (s : Ctrl) : Bool :=
  match s.override with
  | some o => decide (o.moveDelayLeft ≤ 0)
  | none => true

/-- Whether the input axes request movement (`hasAxesMove`). -/
def hasAxesMoveS (s : Ctrl) : Bool :=
  decide (0.001 < |s.axes.1|) || decide (0.001 < |s.axes.2|)

/-- `isMoving` of the tick. -/
def isMovingS (s : Ctrl) : Bool :=
  match s.override with
  | some _ => canMoveS s
  | none => hasAxesMoveS s

/-- The component props of `FPSControls` that the tick reads (with their
source defaults documented at the declaration site). -/
structure Config where
  speed : ℚ
  eyeHeight : ℚ
  capsuleRadius : ℚ
  capsuleHeight : ℚ
  bobEnabled : Bool
  minStepFrequency : ℚ
  maxStepFrequency : ℚ
  verticalBobAmplitude : ℚ
  lateralBobAmplitude : ℚ
  bobSmoothing : ℚ
  speedAmplitudeInfluence : ℚ
  acceleration : ℚ
  deceleration : ℚ
  stepSmoothing : ℚ
  verticalHarmonic : ℚ
  strafeLateralFactor : ℚ
  bobFollowSmoothing : ℚ
  idleReturnSmoothing : ℚ
deriving DecidableEq, Repr

/-- The per-tick environment readings: whether the device is in touch mode,
the camera's current world direction, and the consumed one-shot look delta. -/
structure Env where
  usingTouch : Bool
  camWorldDir : V3
  lookDelta : ℚ × ℚ
deriving DecidableEq, Repr

/-- The camera forward direction used by the tick: world direction with the
`y` component zeroed, then normalized (no degeneracy guard here). -/
def tickWorldDir (env : Env) : V3 :=
  vnormalize ⟨env.camWorldDir.x, 0, env.camWorldDir.z⟩

/-- The camera right vector of the tick: forward × world-up, normalized. -/
def tickRight (env : Env) : V3 :=
  vnormalize (vcross (tickWorldDir env) ⟨0, 1, 0⟩)

/-- The raw movement direction of the tick: the override direction when an
override is active and movable, the axes combination `forward·y + right·x`
when free input is present, and zero otherwise. -/
def moveDirS (env : Env) (s : Ctrl) : V3 :=
  match s.override with
  | some o => if canMoveS s then o.dir else ⟨0, 0, 0⟩
  | none =>
    if hasAxesMoveS s then
      vadd (vscale s.axes.2 (tickWorldDir env)) (vscale s.axes.1 (tickRight env))
    else ⟨0, 0, 0⟩

/-- The desired horizontal velocity `(desiredX, desiredZ)` of the tick:
the normalized movement direction scaled by the override speed (when an
override is active) or the configured base speed, and zero when not moving. -/
def desiredVelS (cfg : Config) (env : Env) (s : Ctrl) : ℚ × ℚ :=
  let dir := moveDirS env s
  if isMovingS s = true ∧ 0 < normSq dir then
    let dn := vnormalize dir
    let baseSpeed := match s.override with
      | some o => o.speed
      | none => cfg.speed
    (dn.x * baseSpeed, dn.z * baseSpeed)
  else (0, 0)

/-- One `useFrame` tick of `FPSControls`, for elapsed time `delta`.
`sinQ` abstracts `Math.sin` and `pi` abstracts `Math.PI`. A tick with an
absent body handle is a no-op (the early `return`). The camera world
direction and the consumed look delta are supplied by `env`. -/
def tick (cfg : Config) (sinQ : ℚ → ℚ) (pi : ℚ) (env : Env) (delta : ℚ)
    (s : Ctrl) : Ctrl :=
  match s.body with
  | none => s
  | some body =>
    let canMove := canMoveS s
    let isMoving := isMovingS s
    let worldDir := tickWorldDir env
    let rightV := tickRight env
    -- Smoothly rotate camera to face target only before movement starts
    let camRot1 := match s.override with
      | some o =>
        if o.lockLook = true ∧ o.lookAt.isSome = true ∧ canMove = false then
          CamRot.slerp s.camRot (o.lookAt.getD ⟨0, 0, 0⟩)
            (min 1 (max 0 ((o.lookSlerp.getD 6) * delta)))
        else s.camRot
      | none => s.camRot
    -- Desired horizontal velocity and smoothed acceleration toward it
    let desired := desiredVelS cfg env s
    let lin := body.linvel
    let newVX := moveTowards cfg.acceleration cfg.deceleration delta lin.x desired.1
    let newVZ := moveTowards cfg.acceleration cfg.deceleration delta lin.z desired.2
    let newLinvel : V3 := match s.override with
      | some _ => if canMove then ⟨newVX, lin.y, newVZ⟩ else ⟨0, lin.y, 0⟩
      | none => ⟨newVX, lin.y, newVZ⟩
    -- Advance scripted sequence timer
    let afterTimer : Option Override × Bool := match s.override with
      | some o =>
        let mdl := if 0 < o.moveDelayLeft then max 0 (o.moveDelayLeft - delta)
                   else o.moveDelayLeft
        let tl := o.timeLeft - delta
        if tl ≤ 0 then (none, true)
        else (some { o with moveDelayLeft := mdl, timeLeft := tl }, s.plcEnabled)
      | none => (none, s.plcEnabled)
    let override2 := afterTimer.1
    let plc2 := afterTimer.2
    -- Head/camera bobbing from the actual post-smoothing velocity
    let bobbed : BobState × ℚ × ℚ :=
      if cfg.bobEnabled then
        let speed2D := qsqrt (newVX * newVX + newVZ * newVZ)
        let normalizedSpeed := min 1 (speed2D / max 0.001 cfg.speed)
        let targetIntensity := normalizedSpeed
        let intensity1 := s.bob.intensity +
          (targetIntensity - s.bob.intensity) * min 1 (cfg.bobSmoothing * delta)
        let targetHz := cfg.minStepFrequency +
          (cfg.maxStepFrequency - cfg.minStepFrequency) * normalizedSpeed
        let smoothedHz1 := s.bob.smoothedHz +
          (targetHz - s.bob.smoothedHz) * min 1 (cfg.stepSmoothing * delta)
        let phase1 := bobPhaseStep pi smoothedHz1 intensity1 delta s.bob.phase
        let ampScale := 1 - cfg.speedAmplitudeInfluence +
          cfg.speedAmplitudeInfluence * normalizedSpeed
        let phi := phase1
        let shapedVertical := sinQ (phi * 2) + cfg.verticalHarmonic * sinQ (phi * 4)
        let vertical := shapedVertical * cfg.verticalBobAmplitude * intensity1 * ampScale
        let forwardAlign :=
          if 0.0001 < speed2D then
            |newVX / speed2D * worldDir.x + newVZ / speed2D * worldDir.z|
          else 0
        let lateralWeight := cfg.strafeLateralFactor +
          (1 - cfg.strafeLateralFactor) * forwardAlign
        let lateral := sinQ phi * cfg.lateralBobAmplitude * lateralWeight *
          intensity1 * ampScale
        ({ s.bob with phase := phase1, intensity := intensity1,
                      smoothedHz := smoothedHz1 }, vertical, lateral)
      else (s.bob, 0, 0)
    let bob1 := bobbed.1
    let vertical := bobbed.2.1
    let lateral := bobbed.2.2
    -- Follow the offsets while moving, ease back to neutral when idle
    let targetVertical := if isMoving then vertical else 0
    let targetLateral := if isMoving then lateral else 0
    let follow := if isMoving then cfg.bobFollowSmoothing else cfg.idleReturnSmoothing
    let k := min 1 (max 0 (follow * delta))
    let smoothedVertical2 := bob1.smoothedVertical +
      (targetVertical - bob1.smoothedVertical) * k
    let smoothedLateral2 := bob1.smoothedLateral +
      (targetLateral - bob1.smoothedLateral) * k
    -- Apply touch look deltas (only when not under an override, read after
    -- the timer update)
    let camRot2 :=
      if env.usingTouch = true ∧ override2 = none ∧
          (env.lookDelta.1 ≠ 0 ∨ env.lookDelta.2 ≠ 0) then
        CamRot.lookDelta camRot1 env.lookDelta.1 env.lookDelta.2
      else camRot1
    -- Place camera at eye height above feet plus bob offsets
    let baseOffset := cfg.capsuleHeight / 2 + cfg.capsuleRadius
    let t := body.pos
    let camPos0 : V3 :=
      ⟨t.x,
       t.y - baseOffset + cfg.eyeHeight +
         (if cfg.bobEnabled then smoothedVertical2 else 0),
       t.z⟩
    let camPos1 := if cfg.bobEnabled then
        vadd camPos0 (vscale smoothedLateral2 rightV)
      else camPos0
    { s with
      body := some { body with linvel := newLinvel }
      override := override2
      plcEnabled := plc2
      camRot := camRot2
      camPos := camPos1
      bob := { bob1 with smoothedVertical := smoothedVertical2,
                         smoothedLateral := smoothedLateral2 } }

/-- A three.js `Matrix4` (an anchor's `matrixWorld`), as a 4×4 rational
matrix indexed row-column. -/
abbrev Mat4 := Matrix (Fin 4) (Fin 4) ℚ

/-- three.js `Vector3.applyMatrix4`: homogeneous transform with perspective
divide. For the affine anchor transforms used by the scene the last row is
`(0,0,0,1)` and the divide is by `1`. -/
def applyMatrix4 (m : Mat4) (v : V3) : V3 :=
  let w := 1 / (m 3 0 * v.x + m 3 1 * v.y + m 3 2 * v.z + m 3 3)
  ⟨(m 0 0 * v.x + m 0 1 * v.y + m 0 2 * v.z + m 0 3) * w,
   (m 1 0 * v.x + m 1 1 * v.y + m 1 2 * v.z + m 1 3) * w,
   (m 2 0 * v.x + m 2 1 * v.y + m 2 2 * v.z + m 2 3) * w⟩

/-- three.js `Matrix4.invert`: the matrix inverse, with the zero matrix as
the result when the determinant is zero (three.js sets all entries to 0 in
that case). -/
def mat4Invert (m : Mat4) : Mat4 :=
  if m.det = 0 then 0 else m.det⁻¹ • m.adjugate

/-- `Math.atan2 y x`. The arctangent has no exact rational model and is
abstracted by the parameter `arctanQ`; the door-yaw code path below only
reaches the `x = 0` branches, where the result is exact. -/
def jsAtan2 (arctanQ : ℚ → ℚ) (pi y x : ℚ) : ℚ :=
  if 0 < x then arctanQ (y / x)
  else if x < 0 then
    (if 0 ≤ y then arctanQ (y / x) + pi else arctanQ (y / x) - pi)
  else
    (if 0 < y then pi / 2 else if y < 0 then -(pi / 2) else 0)

/-- The portal mapping of `tryDoorEndTeleport` (Basement scene): express the
player's world position in the DoorEnd (origin) anchor's local frame via the
inverted world matrix, keep only the ground-plane offset (zero the local
vertical axis), and re-express it in the DoorStart (destination) anchor's
world frame. -/
def doorTargetWorld (endMatrix startMatrix : Mat4) (playerWorld : V3) : V3 :=
  let invEndMatrix := mat4Invert endMatrix
  let playerLocalToEnd := applyMatrix4 invEndMatrix playerWorld
  let localXZ : V3 := ⟨playerLocalToEnd.x, 0, playerLocalToEnd.z⟩
  applyMatrix4 startMatrix localXZ

/-- `distanceOfPlayerFromDoorEnd` of `tryDoorEndTeleport`:
`Math.hypot` of the player's planar offset in the DoorEnd local frame. -/
def doorPlayerDist (endMatrix : Mat4) (playerWorld : V3) : ℚ :=
  let playerLocalToEnd := applyMatrix4 (mat4Invert endMatrix) playerWorld
  qsqrt (playerLocalToEnd.x * playerLocalToEnd.x +
    playerLocalToEnd.z * playerLocalToEnd.z)

/-- The facing-yaw computation of `tryDoorEndTeleport`: offset a point from
the DoorStart world position by the player's measured planar distance along
the world X axis, take the direction from that point toward DoorStart,
flatten and normalize it, and return `Math.atan2(dir.x, dir.z)`. -/
def doorYaw (arctanQ : ℚ → ℚ) (pi : ℚ) (endMatrix : Mat4)
    (playerWorld startPos : V3) : ℚ :=
  let dist := doorPlayerDist endMatrix playerWorld
  let startTeleportPos := vsub startPos ⟨dist, 0, 0⟩
  let lookDir0 := vsub startPos startTeleportPos
  let lookDir1 : V3 := ⟨lookDir0.x, 0, lookDir0.z⟩
  let lookDir := vnormalize lookDir1
  jsAtan2 arctanQ pi lookDir.x lookDir.z

/-- The `__teleport_to__` payload dispatched by `tryDoorEndTeleport`:
the mapped world point with `0.8` added to its X coordinate, `keepY`
set, and the computed facing yaw (always present). -/
def doorTeleportDetail (arctanQ : ℚ → ℚ) (pi : ℚ)
    (endMatrix startMatrix : Mat4) (playerWorld startPos : V3) :
    TeleportDetail :=
  let targetWorld := doorTargetWorld endMatrix startMatrix playerWorld
  { x := some (targetWorld.x + 0.8)
    y := none
    z := some targetWorld.z
    keepY := true
    yaw := some (doorYaw arctanQ pi endMatrix playerWorld startPos) }

/-- The `__scripted_move__` payload of the door-open sequence scenario:
`durationSec = 2.2`, `distance = 2.4`, `lockLook`, `lookAt = (5,0,0)`,
`lookSlerp = 2.5`, `moveDelaySec = 0.35`. -/
def doorSceneDetail : ScriptedDetail :=
  { durationSec := some 2.2
    distance := some 2.4
    lockLook := some true
    lookAt := some ⟨5, 0, 0⟩
    lookSlerp := some 2.5
    moveDelaySec := some 0.35 }

/-- The override produced by `doorSceneDetail` after `e` seconds of elapsed
tick time: speed `2.4 / 2.2 = 12/11` m/s, time left `2.2 - e`, move delay
left `max 0 (0.35 - e)`. -/
def doorSceneOverride (camDir : V3) (e : ℚ) : Override :=
  { timeLeft := 2.2 - e
    duration := 2.2
    speed := 12 / 11
    dir := captureDir camDir
    lockLook := true
    lookAt := some ⟨5, 0, 0⟩
    lookSlerp := some 2.5
    moveDelayLeft := max 0 (0.35 - e) }

/-! ## Concrete fixtures for witnesses and counterexamples -/

/-- A sample rigid-body state. -/
def sampleBody : Body := { pos := ⟨8, 0.7, 1.5⟩, linvel := ⟨1, -2, 3⟩ }

/-- A sample active override (still in its delay phase), exercising
prior-state independence of teleports. -/
def sampleOverride : Override :=
  { timeLeft := 1
    duration := 2
    speed := 3
    dir := ⟨1, 0, 0⟩
    lockLook := true
    lookAt := some ⟨0, 0, 0⟩
    lookSlerp := some 6
    moveDelayLeft := 1/4 }

/-- A sample bob state. -/
def sampleBob : BobState :=
  { phase := 1, intensity := 1/2, smoothedHz := 1/2,
    smoothedVertical := 0, smoothedLateral := 0 }

/-- A sample controller state with a body handle, an active override, a
known camera yaw, pointer lock disabled and nonzero input axes. -/
def sampleCtrl : Ctrl :=
  { body := some sampleBody
    override := some sampleOverride
    camRot := CamRot.euler 1 0
    camPos := ⟨0, 0, 0⟩
    plcEnabled := false
    axes := (1, 0)
    bob := sampleBob }

/-- The teleport payload of the claim scenario: `target = (10, _, 5)`,
`keepY` set, and a supplied yaw. -/
def sampleTeleportDetail : TeleportDetail :=
  { x := some 10, y := none, z := some 5, keepY := true, yaw := some (157/100) }

/-- `sampleCtrl` with the body handle absent and no override. -/
def absentBodyCtrl : Ctrl :=
  { sampleCtrl with body := none, override := none, plcEnabled := true }

/-- The source's default component props of `FPSControls`. -/
def sampleConfig : Config :=
  { speed := 2
    eyeHeight := 1.6
    capsuleRadius := 0.3
    capsuleHeight := 1.0
    bobEnabled := true
    minStepFrequency := 0.1
    maxStepFrequency := 0.8
    verticalBobAmplitude := 0.015
    lateralBobAmplitude := 0.01
    bobSmoothing := 8
    speedAmplitudeInfluence := 1
    acceleration := 18
    deceleration := 22
    stepSmoothing := 6
    verticalHarmonic := 0.15
    strafeLateralFactor := 0.9
    bobFollowSmoothing := 18
    idleReturnSmoothing := 6 }

/-- A sample tick environment: desktop (non-touch), camera facing `-Z`. -/
def sampleEnv : Env :=
  { usingTouch := false, camWorldDir := ⟨0, 0, -1⟩, lookDelta := (0, 0) }

/-- `sampleCtrl` carrying the door-scene override at elapsed time `0`. -/
def doorSceneCtrl : Ctrl :=
  { sampleCtrl with override := some (doorSceneOverride ⟨0, 0, -1⟩ 0) }

/-! ## Helper lemmas -/

theorem jsSign_of_pos {q : ℚ} (h : 0 < q) : jsSign q = 1 := if_pos h

theorem jsSign_of_neg {q : ℚ} (h : q < 0) : jsSign q = -1 := by
  unfold jsSign
  rw [if_neg (by linarith), if_pos h]

theorem moveTowards_eq (a d δ c t : ℚ) :
    moveTowards a d δ c t =
      if |t - c| ≤ (if |c| < |t| then a else d) * δ then t
      else c + jsSign (t - c) * ((if |c| < |t| then a else d) * δ) := rfl

theorem jsRem_mem {a b : ℚ} (ha : 0 ≤ a) (hb : 0 < b) :
    0 ≤ jsRem a b ∧ jsRem a b < b := by
  have hfr : jsRem a b = b * Int.fract (a / b) := by
    unfold jsRem jsTrunc
    rw [if_pos (div_nonneg ha hb.le), Int.fract, mul_sub]
    have hba : b * (a / b) = a := by field_simp
    rw [hba]
  rw [hfr]
  refine ⟨mul_nonneg hb.le (Int.fract_nonneg _), ?_⟩
  calc b * Int.fract (a / b) < b * 1 := (mul_lt_mul_left hb).mpr (Int.fract_lt_one _)
  _ = b := mul_one b

theorem jsRem_of_lt {a b : ℚ} (ha : 0 ≤ a) (hab : a < b) : jsRem a b = a := by
  have hb : 0 < b := lt_of_le_of_lt ha hab
  unfold jsRem jsTrunc
  rw [if_pos (div_nonneg ha hb.le)]
  have hfl : ⌊a / b⌋ = 0 :=
    Int.floor_eq_zero_iff.mpr ⟨div_nonneg ha hb.le, (div_lt_one hb).mpr hab⟩
  rw [hfl]
  push_cast
  ring

theorem jsRem_of_ge {a b : ℚ} (hb : 0 < b) (hba : b ≤ a) (hab : a < 2 * b) :
    jsRem a b = a - b := by
  unfold jsRem jsTrunc
  have h0 : 0 ≤ a / b := div_nonneg (le_trans hb.le hba) hb.le
  rw [if_pos h0]
  have hfl : ⌊a / b⌋ = 1 := by
    rw [Int.floor_eq_iff]
    constructor
    · push_cast
      exact (le_div_iff₀ hb).mpr (by linarith)
    · push_cast
      exact (div_lt_iff₀ hb).mpr (by linarith)
  rw [hfl]
  push_cast
  ring

theorem bobPhaseStep_mem {pi hz intensity δ ph : ℚ} (hpi : 0 < pi)
    (hhz : 0 ≤ hz) (hδ : 0 ≤ δ) (hph : 0 ≤ ph) (hlt : ph < 2 * pi) :
    0 ≤ bobPhaseStep pi hz intensity δ ph ∧
      bobPhaseStep pi hz intensity δ ph < 2 * pi := by
  unfold bobPhaseStep
  split_ifs with hg
  · have ha : 0 ≤ ph + hz * 2 * pi * δ := by positivity
    have hmem := jsRem_mem ha (show (0:ℚ) < pi * 2 by linarith)
    exact ⟨hmem.1, by linarith [hmem.2]⟩
  · exact ⟨hph, hlt⟩

theorem crossedB_iff (phFrom phTo thr : ℚ) :
    crossedB phFrom phTo thr = true ↔
      ((phFrom < thr ∧ thr ≤ phTo) ∨
       (phTo < phFrom ∧ (phFrom < thr ∨ thr ≤ phTo))) := by
  simp [crossedB]

theorem stepEvents_right_mem (pi phFrom phTo : ℚ) :
    Foot.right ∈ stepEvents pi phFrom phTo ↔ crossedB phFrom phTo 0 = true := by
  cases h1 : crossedB phFrom phTo 0 <;> cases h2 : crossedB phFrom phTo pi <;>
    simp [stepEvents, h1, h2]

theorem stepEvents_left_mem (pi phFrom phTo : ℚ) :
    Foot.left ∈ stepEvents pi phFrom phTo ↔ crossedB phFrom phTo pi = true := by
  cases h1 : crossedB phFrom phTo 0 <;> cases h2 : crossedB phFrom phTo pi <;>
    simp [stepEvents, h1, h2]

theorem qsqrt_one : qsqrt 1 = 1 := by
  unfold qsqrt
  simp

theorem vnormalize_of_unit {v : V3} (h : normSq v = 1) : vnormalize v = v := by
  cases v with
  | mk x y z =>
    unfold vnormalize vlength
    rw [h, qsqrt_one]
    simp

theorem captureDir_y (camDir : V3) : (captureDir camDir).y = 0 := by
  unfold captureDir vnormalize
  dsimp only
  split_ifs <;> simp

theorem runBobPhase_mem (pi : ℚ) (hpi : 0 < pi) (ticks : List (ℚ × ℚ × ℚ))
    (phase : ℚ) (h0 : 0 ≤ phase) (h1 : phase < 2 * pi)
    (hticks : ∀ t ∈ ticks, 0 ≤ t.1 ∧ 0 ≤ t.2.2) :
    0 ≤ runBobPhase pi ticks phase ∧ runBobPhase pi ticks phase < 2 * pi := by
  induction ticks generalizing phase with
  | nil => exact ⟨h0, h1⟩
  | cons t ts ih =>
    have ht := hticks t (List.mem_cons_self t ts)
    have hstep := @bobPhaseStep_mem pi t.1 t.2.1 t.2.2 phase hpi ht.1 ht.2 h0 h1
    exact ih _ hstep.1 hstep.2 (fun u hu => hticks u (List.mem_cons_of_mem t hu))

theorem mat4Invert_one : mat4Invert 1 = 1 := by
  unfold mat4Invert
  simp

theorem applyMatrix4_one (v : V3) : applyMatrix4 1 v = v := by
  cases v with
  | mk x y z =>
    unfold applyMatrix4
    simp [Matrix.one_apply]

theorem vnormalize_axis_pos {d : ℚ} (hd : 0 < d) :
    vnormalize ⟨d, 0, 0⟩ = ⟨1, 0, 0⟩ := by
  unfold vnormalize vlength normSq qsqrt
  dsimp only
  have h1 : d * d + 0 * 0 + 0 * 0 = d * d := by ring
  rw [h1, Rat.sqrt_eq, abs_of_pos hd, if_neg hd.ne']
  simp [div_self hd.ne']

theorem vnormalize_zero_vec : vnormalize ⟨0, 0, 0⟩ = ⟨0, 0, 0⟩ := by
  unfold vnormalize vlength normSq qsqrt
  dsimp only
  have h1 : (0:ℚ) * 0 + 0 * 0 + 0 * 0 = 0 * 0 := by ring
  rw [h1, Rat.sqrt_eq]
  simp

theorem jsAtan2_one_zero (arctanM : ℚ → ℚ) (pi : ℚ) :
    jsAtan2 arctanM pi 1 0 = pi / 2 := by
  unfold jsAtan2
  norm_num

theorem jsAtan2_zero_zero (arctanM : ℚ → ℚ) (pi : ℚ) :
    jsAtan2 arctanM pi 0 0 = 0 := by
  unfold jsAtan2
  norm_num

theorem doorPlayerDist_nonneg (endM : Mat4) (player : V3) :
    0 ≤ doorPlayerDist endM player := by
  unfold doorPlayerDist qsqrt
  exact Rat.sqrt_nonneg _

theorem doorYaw_eq (arctanM : ℚ → ℚ) (pi : ℚ) (endM : Mat4)
    (player startPos : V3) :
    doorYaw arctanM pi endM player startPos =
      jsAtan2 arctanM pi
        (vnormalize ⟨doorPlayerDist endM player, 0, 0⟩).x
        (vnormalize ⟨doorPlayerDist endM player, 0, 0⟩).z := by
  unfold doorYaw
  dsimp only
  have h1 : (⟨(vsub startPos (vsub startPos ⟨doorPlayerDist endM player, 0, 0⟩)).x, 0,
      (vsub startPos (vsub startPos ⟨doorPlayerDist endM player, 0, 0⟩)).z⟩ : V3) =
      ⟨doorPlayerDist endM player, 0, 0⟩ := by
    simp [vsub]
  rw [h1]

theorem doorYaw_pos_dist (arctanM : ℚ → ℚ) (pi : ℚ) (endM : Mat4)
    (player startPos : V3) (hd : 0 < doorPlayerDist endM player) :
    doorYaw arctanM pi endM player startPos = pi / 2 := by
  rw [doorYaw_eq, vnormalize_axis_pos hd]
  exact jsAtan2_one_zero arctanM pi

theorem doorYaw_zero_dist (arctanM : ℚ → ℚ) (pi : ℚ) (endM : Mat4)
    (player startPos : V3) (hd : doorPlayerDist endM player = 0) :
    doorYaw arctanM pi endM player startPos = 0 := by
  rw [doorYaw_eq, hd, vnormalize_zero_vec]
  exact jsAtan2_zero_zero arctanM pi

theorem captureDir_sample : captureDir ⟨0, 0, -1⟩ = ⟨0, 0, -1⟩ := by
  unfold captureDir
  dsimp only
  rw [if_neg (by norm_num [normSq])]
  exact vnormalize_of_unit (by norm_num [normSq])

theorem canMoveS_doorScene (s : Ctrl) (camDir : V3) (e : ℚ)
    (hover : s.override = some (doorSceneOverride camDir e)) :
    canMoveS s = decide ((0.35:ℚ) ≤ e) := by
  simp only [canMoveS, hover, doorSceneOverride]
  rw [decide_eq_decide, max_le_iff]
  constructor
  · rintro ⟨-, h⟩
    linarith
  · intro h
    exact ⟨le_refl 0, by linarith⟩

theorem desiredVelS_frozen (cfg : Config) (env : Env) (s : Ctrl) (o : Override)
    (hover : s.override = some o) (hcan : canMoveS s = false) :
    desiredVelS cfg env s = (0, 0) := by
  unfold desiredVelS
  rw [if_neg]
  rintro ⟨hm, -⟩
  simp only [isMovingS, hover, hcan] at hm
  exact Bool.false_ne_true hm

theorem desiredVelS_override_moving (cfg : Config) (env : Env) (s : Ctrl)
    (o : Override) (hover : s.override = some o) (hcan : canMoveS s = true)
    (hunit : normSq o.dir = 1) :
    desiredVelS cfg env s = (o.dir.x * o.speed, o.dir.z * o.speed) := by
  have hdir : moveDirS env s = o.dir := by
    simp only [moveDirS, hover, hcan, if_true]
  have hmov : isMovingS s = true := by
    simp only [isMovingS, hover]
    exact hcan
  unfold desiredVelS
  rw [hdir]
  rw [if_pos ⟨hmov, by rw [hunit]; norm_num⟩]
  rw [vnormalize_of_unit hunit]
  simp only [hover]

theorem delay_decrement (e δ : ℚ) (hδ : 0 ≤ δ) :
    (if 0 < max 0 (0.35 - e) then max 0 (max 0 (0.35 - e) - δ)
     else max 0 (0.35 - e)) = max 0 (0.35 - (e + δ)) := by
  rcases le_or_lt (0.35 - e) 0 with h | h
  · rw [max_eq_left h, if_neg (lt_irrefl 0), max_eq_left (by linarith)]
  · rw [max_eq_right h.le, if_pos h]
    congr 1
    ring

theorem tick_override_state (cfg : Config) (sinQ : ℚ → ℚ) (pi : ℚ) (env : Env)
    (δ : ℚ) (s : Ctrl) (b : Body) (o : Override)
    (hb : s.body = some b) (hover : s.override = some o) :
    (tick cfg sinQ pi env δ s).override =
      (if o.timeLeft - δ ≤ 0 then none
       else some { o with
         moveDelayLeft := if 0 < o.moveDelayLeft then max 0 (o.moveDelayLeft - δ)
                          else o.moveDelayLeft,
         timeLeft := o.timeLeft - δ }) ∧
    (tick cfg sinQ pi env δ s).plcEnabled =
      (if o.timeLeft - δ ≤ 0 then true else s.plcEnabled) ∧
    (tick cfg sinQ pi env δ s).body = some
      { b with linvel :=
          if canMoveS s then
            ⟨moveTowards cfg.acceleration cfg.deceleration δ b.linvel.x
               (desiredVelS cfg env s).1,
             b.linvel.y,
             moveTowards cfg.acceleration cfg.deceleration δ b.linvel.z
               (desiredVelS cfg env s).2⟩
          else ⟨0, b.linvel.y, 0⟩ } ∧
    (env.usingTouch = false →
      (tick cfg sinQ pi env δ s).camRot =
        if o.lockLook = true ∧ o.lookAt.isSome = true ∧ canMoveS s = false then
          CamRot.slerp s.camRot (o.lookAt.getD ⟨0, 0, 0⟩)
            (min 1 (max 0 ((o.lookSlerp.getD 6) * δ)))
        else s.camRot) := by
  refine ⟨?_, ?_, ?_, ?_⟩
  · rcases le_or_lt (o.timeLeft - δ) 0 with htl | htl
    · simp [tick, hb, hover, htl]
    · simp [tick, hb, hover, htl, not_le.mpr htl]
  · rcases le_or_lt (o.timeLeft - δ) 0 with htl | htl
    · simp [tick, hb, hover, htl]
    · simp [tick, hb, hover, htl, not_le.mpr htl]
  · simp only [tick, hb, hover]
  · intro htouch
    rcases le_or_lt (o.timeLeft - δ) 0 with htl | htl
    · simp [tick, hb, hover, htl, htouch]
    · simp [tick, hb, hover, htl, not_le.mpr htl, htouch]

/-! ## Claim theorems -/

/-- C4: for every sequence of ticks with nonnegative `delta` and nonnegative
cadence, the bob phase stays in `[0, 2·pi)`, and one step advances the phase
by `stepHz · 2 · pi · delta` (up to wrapping by a whole number of `2·pi`
periods) exactly when `intensity > 0.001` and `stepHz > 0.0001`, leaving it
unchanged otherwise. `pi` abstracts the floating-point `Math.PI`. -/
theorem bobPhase_wrap_invariant (pi : ℚ) (hpi : 0 < pi)
    (ticks : List (ℚ × ℚ × ℚ)) (phase : ℚ)
    (h0 : 0 ≤ phase) (h1 : phase < 2 * pi)
    (hticks : ∀ t ∈ ticks, 0 ≤ t.1 ∧ 0 ≤ t.2.2)
    (hz intensity δ ph : ℚ) :
    (0 ≤ runBobPhase pi ticks phase ∧ runBobPhase pi ticks phase < 2 * pi) ∧
    (¬(0.001 < intensity ∧ 0.0001 < hz) →
      bobPhaseStep pi hz intensity δ ph = ph) ∧
    ((0.001 < intensity ∧ 0.0001 < hz) →
      ∃ k : ℤ, bobPhaseStep pi hz intensity δ ph =
        ph + hz * 2 * pi * δ - pi * 2 * k) := by
  refine ⟨runBobPhase_mem pi hpi ticks phase h0 h1 hticks, ?_, ?_⟩
  · intro hg
    unfold bobPhaseStep
    rw [if_neg hg]
  · intro hg
    refine ⟨jsTrunc ((ph + hz * 2 * pi * δ) / (pi * 2)), ?_⟩
    unfold bobPhaseStep
    rw [if_pos hg]
    unfold jsRem
    ring

theorem bobPhase_wrap_invariant_witness :
    (0 ≤ runBobPhase 3 [(1/2, 1, 1/10)] 0 ∧ runBobPhase 3 [(1/2, 1, 1/10)] 0 < 2 * 3) ∧
    (¬((0.001:ℚ) < 1 ∧ (0.0001:ℚ) < 1/2) → bobPhaseStep 3 (1/2) 1 (1/10) 0 = 0) ∧
    (((0.001:ℚ) < 1 ∧ (0.0001:ℚ) < 1/2) →
      ∃ k : ℤ, bobPhaseStep 3 (1/2) 1 (1/10) 0 = 0 + 1/2 * 2 * 3 * (1/10) - 3 * 2 * k) :=
  bobPhase_wrap_invariant 3 (by norm_num) [(1/2, 1, 1/10)] 0 (by norm_num)
    (by norm_num)
    (by intro t ht; rcases List.mem_singleton.mp ht with rfl; constructor <;> norm_num)
    (1/2) 1 (1/10) 0

/-- C5: for a single tick whose phase advance is below half a cycle, the
footstep edge detection never fires both a "left" and a "right" event; the
"right" event fires exactly when the advancing phase passes `0` (the wrapped
case `prevPhase > phase`) and the "left" event exactly when it passes `pi`. -/
theorem footstep_edge_semantics (pi ph0 hz intensity δ : ℚ) (hpi : 0 < pi)
    (h0 : 0 ≤ ph0) (h1 : ph0 < 2 * pi) (hhz : 0 ≤ hz) (hδ : 0 ≤ δ)
    (hhalf : hz * 2 * pi * δ < pi)
    (hguard : (0.001:ℚ) < intensity ∧ (0.0001:ℚ) < hz) :
    ¬(Foot.right ∈ stepEvents pi ph0 (bobPhaseStep pi hz intensity δ ph0) ∧
      Foot.left ∈ stepEvents pi ph0 (bobPhaseStep pi hz intensity δ ph0)) ∧
    (crossedB ph0 (bobPhaseStep pi hz intensity δ ph0) 0 = true ↔
      2 * pi ≤ ph0 + hz * 2 * pi * δ) ∧
    (crossedB ph0 (bobPhaseStep pi hz intensity δ ph0) pi = true ↔
      (ph0 < pi ∧ pi ≤ ph0 + hz * 2 * pi * δ)) := by
  have hadv : 0 ≤ hz * 2 * pi * δ := by positivity
  have hstep : bobPhaseStep pi hz intensity δ ph0 =
      jsRem (ph0 + hz * 2 * pi * δ) (pi * 2) := by
    unfold bobPhaseStep
    rw [if_pos hguard]
  rw [hstep, stepEvents_right_mem, stepEvents_left_mem]
  set a := ph0 + hz * 2 * pi * δ with ha_def
  have ha0 : 0 ≤ a := by positivity
  rcases lt_or_le a (pi * 2) with hlt | hge
  · -- no wrap: the new phase is `a`
    have hrem : jsRem a (pi * 2) = a := jsRem_of_lt ha0 hlt
    rw [hrem]
    have hc0 : crossedB ph0 a 0 = false := by
      rw [← Bool.not_eq_true, crossedB_iff]
      push_neg
      refine ⟨fun h => absurd h (not_lt.mpr h0), fun h => absurd h (not_lt.mpr ?_)⟩
      linarith
    have hcpi : crossedB ph0 a pi = true ↔ (ph0 < pi ∧ pi ≤ a) := by
      rw [crossedB_iff]
      constructor
      · rintro (h | ⟨hlt2, _⟩)
        · exact h
        · exact absurd hlt2 (not_lt.mpr (by linarith))
      · exact fun h => Or.inl h
    refine ⟨?_, ?_, hcpi⟩
    · rintro ⟨hr, _⟩
      rw [hc0] at hr
      exact Bool.false_ne_true hr
    · rw [hc0]
      constructor
      · intro h
        exact absurd h Bool.false_ne_true
      · intro h
        linarith
  · -- wrap: the new phase is `a - 2·pi`
    have hlt2 : a < 2 * (pi * 2) := by linarith
    have hrem : jsRem a (pi * 2) = a - pi * 2 :=
      jsRem_of_ge (by linarith) hge hlt2
    rw [hrem]
    have hph0pi : pi < ph0 := by linarith
    have hto0 : 0 ≤ a - pi * 2 := by linarith
    have htoph0 : a - pi * 2 < ph0 := by linarith
    have htopi : a - pi * 2 < pi := by linarith
    have hc0 : crossedB ph0 (a - pi * 2) 0 = true := by
      rw [crossedB_iff]
      exact Or.inr ⟨htoph0, Or.inr hto0⟩
    have hcpi : crossedB ph0 (a - pi * 2) pi = false := by
      rw [← Bool.not_eq_true, crossedB_iff]
      push_neg
      exact ⟨fun h => absurd h (not_lt.mpr hph0pi.le), fun _ => ⟨hph0pi.le, htopi⟩⟩
    refine ⟨?_, ?_, ?_⟩
    · rintro ⟨_, hl⟩
      rw [hcpi] at hl
      exact Bool.false_ne_true hl
    · rw [hc0]
      exact ⟨fun _ => by linarith, fun _ => rfl⟩
    · rw [hcpi]
      constructor
      · intro h
        exact absurd h Bool.false_ne_true
      · rintro ⟨h, _⟩
        exact absurd h (not_lt.mpr hph0pi.le)

/-- C1: processing a teleport request while a body handle is present zeroes
the body's linear velocity, cancels any scripted override (so `canMove` is
true on the following tick regardless of prior state), moves the body to the
requested coordinates with Y unchanged when `keepY` is set, and makes the
camera yaw exactly the supplied yaw. -/
theorem teleport_resets_state (s : Ctrl) (b : Body) (d : TeleportDetail)
    (tx tz yw : ℚ) (hb : s.body = some b) (hx : d.x = some tx)
    (hz : d.z = some tz) (hk : d.keepY = true) (hy : d.yaw = some yw) :
    ∃ b', (onTeleport d s).body = some b' ∧
      b'.linvel = ⟨0, 0, 0⟩ ∧
      b'.pos = ⟨tx, b.pos.y, tz⟩ ∧
      (onTeleport d s).override = none ∧
      canMoveS (onTeleport d s) = true ∧
      knownYaw (onTeleport d s).camRot = some yw := by
  simp [onTeleport, hb, hx, hz, hk, hy, canMoveS, knownYaw]

theorem teleport_resets_state_witness :
    ∃ b', (onTeleport sampleTeleportDetail sampleCtrl).body = some b' ∧
      b'.linvel = ⟨0, 0, 0⟩ ∧
      b'.pos = ⟨10, sampleBody.pos.y, 5⟩ ∧
      (onTeleport sampleTeleportDetail sampleCtrl).override = none ∧
      canMoveS (onTeleport sampleTeleportDetail sampleCtrl) = true ∧
      knownYaw (onTeleport sampleTeleportDetail sampleCtrl).camRot = some (157/100) :=
  teleport_resets_state sampleCtrl sampleBody sampleTeleportDetail 10 5 (157/100)
    rfl rfl rfl rfl rfl

/-- C9 (amended): a teleport request issued while the body handle is absent
is a no-op, but a scripted-move request does not consult the handle: it
still installs the override, clears the movement axes, and disables pointer
lock when look-locked. -/
theorem absent_body_request_behavior (d : TeleportDetail) (s : Ctrl)
    (camDir : V3) (sd : ScriptedDetail) (hb : s.body = none) :
    onTeleport d s = s ∧
    (onScriptedMove camDir sd s).override.isSome = true ∧
    (onScriptedMove camDir sd s).axes = (0, 0) ∧
    (sd.lockLook.getD true = true →
      (onScriptedMove camDir sd s).plcEnabled = false) := by
  refine ⟨?_, rfl, rfl, fun h => ?_⟩
  · simp only [onTeleport, hb]
  · simp only [onScriptedMove, h, if_true]

theorem absent_body_request_behavior_witness :
    onTeleport sampleTeleportDetail absentBodyCtrl = absentBodyCtrl ∧
    (onScriptedMove ⟨0, 0, -1⟩ doorSceneDetail absentBodyCtrl).override.isSome = true ∧
    (onScriptedMove ⟨0, 0, -1⟩ doorSceneDetail absentBodyCtrl).axes = (0, 0) ∧
    (doorSceneDetail.lockLook.getD true = true →
      (onScriptedMove ⟨0, 0, -1⟩ doorSceneDetail absentBodyCtrl).plcEnabled = false) :=
  absent_body_request_behavior sampleTeleportDetail absentBodyCtrl ⟨0, 0, -1⟩
    doorSceneDetail rfl

/-- C9 counterexample: a scripted-move request issued while the body handle
is absent is not a no-op — it changes the override, the input axes and the
pointer-lock flag, contradicting "it is simply ignored and leaves all
controller state unchanged". -/
theorem scripted_move_absent_body_cex :
    absentBodyCtrl.body = none ∧
    (onScriptedMove ⟨0, 0, -1⟩ doorSceneDetail absentBodyCtrl).override ≠
      absentBodyCtrl.override ∧
    (onScriptedMove ⟨0, 0, -1⟩ doorSceneDetail absentBodyCtrl).axes ≠
      absentBodyCtrl.axes ∧
    (onScriptedMove ⟨0, 0, -1⟩ doorSceneDetail absentBodyCtrl).plcEnabled ≠
      absentBodyCtrl.plcEnabled := by
  refine ⟨rfl, ?_, ?_, ?_⟩ <;>
    simp [onScriptedMove, absentBodyCtrl, sampleCtrl, doorSceneDetail, Prod.ext_iff]

/-- C10: every scripted-move request stores an override whose duration and
distance were clamped up to at least `0.05` and whose move delay was clamped
to at least `0` before `speed = distance / duration` was computed, so the
stored speed is strictly positive and the stored delay nonnegative. -/
theorem scripted_params_clamped (camDir : V3) (d : ScriptedDetail) (s : Ctrl) :
    ∃ o, (onScriptedMove camDir d s).override = some o ∧
      o.timeLeft = max 0.05 (d.durationSec.getD 1.2) ∧
      o.duration = max 0.05 (d.durationSec.getD 1.2) ∧
      o.speed = max 0.05 (d.distance.getD 1.5) / max 0.05 (d.durationSec.getD 1.2) ∧
      o.moveDelayLeft = max 0 (d.moveDelaySec.getD 0.35) ∧
      0 < o.speed ∧ 0 ≤ o.moveDelayLeft := by
  refine ⟨_, rfl, rfl, rfl, rfl, rfl, ?_, ?_⟩
  · exact div_pos (lt_of_lt_of_le (by norm_num) (le_max_left _ _))
      (lt_of_lt_of_le (by norm_num) (le_max_left _ _))
  · exact le_max_left 0 _

/-- C6: for the scripted move begun with `durationSec = 2.2`,
`distance = 2.4`, `lockLook = true`, `lookAt = (5,0,0)`, `lookSlerp = 2.5`,
`moveDelaySec = 0.35`: the handler installs the scenario override (speed
`2.4/2.2 = 12/11` m/s along the captured flattened forward direction) and a
tick taken after `e` seconds of elapsed time keeps the override with its
timers decremented while `e + δ < 2.2` and destroys it (returning to the
free state with pointer lock re-enabled) once `e + δ ≥ 2.2`; while
`e < 0.35`, `canMove` is false, the desired velocity is zero, the commanded
horizontal velocity is zero and the camera is slerped toward facing
`(5,0,0)` at rate `2.5` per second; once `e ≥ 0.35`, `canMove` is true and
the desired velocity is the captured direction times `12/11`, of squared
magnitude `(12/11)²`. -/
theorem scripted_door_scenario (cfg : Config) (sinQ : ℚ → ℚ) (pi : ℚ)
    (env : Env) (δ e : ℚ) (base s : Ctrl) (b : Body) (camDir : V3)
    (hb : s.body = some b)
    (hover : s.override = some (doorSceneOverride camDir e))
    (hδ : 0 ≤ δ) (htouch : env.usingTouch = false)
    (hunit : normSq (captureDir camDir) = 1) :
    (onScriptedMove camDir doorSceneDetail base =
      { base with override := some (doorSceneOverride camDir 0),
                  plcEnabled := false, axes := (0, 0) }) ∧
    (e + δ < 2.2 → (tick cfg sinQ pi env δ s).override =
      some (doorSceneOverride camDir (e + δ))) ∧
    (2.2 ≤ e + δ → (tick cfg sinQ pi env δ s).override = none ∧
      (tick cfg sinQ pi env δ s).plcEnabled = true) ∧
    (e < 0.35 → canMoveS s = false ∧ desiredVelS cfg env s = (0, 0) ∧
      (∃ b2, (tick cfg sinQ pi env δ s).body = some b2 ∧
        b2.linvel = ⟨0, b.linvel.y, 0⟩) ∧
      (tick cfg sinQ pi env δ s).camRot =
        CamRot.slerp s.camRot ⟨5, 0, 0⟩ (min 1 (max 0 (2.5 * δ)))) ∧
    (0.35 ≤ e → canMoveS s = true ∧
      desiredVelS cfg env s =
        ((captureDir camDir).x * (12/11), (captureDir camDir).z * (12/11)) ∧
      (desiredVelS cfg env s).1 ^ 2 + (desiredVelS cfg env s).2 ^ 2 =
        (12/11) ^ 2) := by
  obtain ⟨hov, hplc, hbody, hcam⟩ :=
    tick_override_state cfg sinQ pi env δ s b _ hb hover
  refine ⟨?_, ?_, ?_, ?_, ?_⟩
  · simp only [onScriptedMove, doorSceneDetail, doorSceneOverride, Option.getD_some]
    norm_num
  · intro hlt
    rw [hov]
    have ht : ¬((doorSceneOverride camDir e).timeLeft - δ ≤ 0) := by
      simp only [doorSceneOverride]
      push_neg
      linarith
    rw [if_neg ht]
    simp only [doorSceneOverride, Option.some.injEq, Override.mk.injEq, sub_sub,
      true_and]
    exact delay_decrement e δ hδ
  · intro hge
    have ht : (doorSceneOverride camDir e).timeLeft - δ ≤ 0 := by
      simp only [doorSceneOverride]
      linarith
    rw [hov, if_pos ht, hplc, if_pos ht]
    exact ⟨rfl, rfl⟩
  · intro he
    have hcanF : canMoveS s = false := by
      rw [canMoveS_doorScene s camDir e hover]
      exact decide_eq_false (not_le.mpr he)
    refine ⟨hcanF, desiredVelS_frozen cfg env s _ hover hcanF, ?_, ?_⟩
    · rw [hcanF] at hbody
      simp only [Bool.false_eq_true, if_false] at hbody
      exact ⟨_, hbody, rfl⟩
    · rw [hcam htouch]
      rw [if_pos]
      · simp [doorSceneOverride]
      · simp [doorSceneOverride, hcanF]
  · intro he
    have hcanT : canMoveS s = true := by
      rw [canMoveS_doorScene s camDir e hover]
      exact decide_eq_true he
    have hunit' : normSq (doorSceneOverride camDir e).dir = 1 := hunit
    have hdes := desiredVelS_override_moving cfg env s _ hover hcanT hunit'
    simp only [doorSceneOverride] at hdes
    refine ⟨hcanT, hdes, ?_⟩
    rw [hdes]
    have hy := captureDir_y camDir
    have h1 : (captureDir camDir).x * (captureDir camDir).x +
        (captureDir camDir).z * (captureDir camDir).z = 1 := by
      have h2 := hunit
      unfold normSq at h2
      rw [hy] at h2
      linarith
    have h3 : ((captureDir camDir).x * (12/11)) ^ 2 +
        ((captureDir camDir).z * (12/11)) ^ 2 =
        ((captureDir camDir).x * (captureDir camDir).x +
         (captureDir camDir).z * (captureDir camDir).z) * (12/11) ^ 2 := by
      ring
    rw [h3, h1, one_mul]

theorem scripted_door_scenario_witness :
    (onScriptedMove ⟨0, 0, -1⟩ doorSceneDetail sampleCtrl =
      { sampleCtrl with override := some (doorSceneOverride ⟨0, 0, -1⟩ 0),
                        plcEnabled := false, axes := (0, 0) }) ∧
    ((0 : ℚ) + 1/60 < 2.2 →
      (tick sampleConfig (fun _ => 0) 3 sampleEnv (1/60) doorSceneCtrl).override =
        some (doorSceneOverride ⟨0, 0, -1⟩ (0 + 1/60))) ∧
    ((2.2 : ℚ) ≤ 0 + 1/60 →
      (tick sampleConfig (fun _ => 0) 3 sampleEnv (1/60) doorSceneCtrl).override = none ∧
      (tick sampleConfig (fun _ => 0) 3 sampleEnv (1/60) doorSceneCtrl).plcEnabled = true) ∧
    ((0 : ℚ) < 0.35 → canMoveS doorSceneCtrl = false ∧
      desiredVelS sampleConfig sampleEnv doorSceneCtrl = (0, 0) ∧
      (∃ b2, (tick sampleConfig (fun _ => 0) 3 sampleEnv (1/60) doorSceneCtrl).body = some b2 ∧
        b2.linvel = ⟨0, sampleBody.linvel.y, 0⟩) ∧
      (tick sampleConfig (fun _ => 0) 3 sampleEnv (1/60) doorSceneCtrl).camRot =
        CamRot.slerp doorSceneCtrl.camRot ⟨5, 0, 0⟩ (min 1 (max 0 (2.5 * (1/60))))) ∧
    ((0.35 : ℚ) ≤ 0 → canMoveS doorSceneCtrl = true ∧
      desiredVelS sampleConfig sampleEnv doorSceneCtrl =
        ((captureDir ⟨0, 0, -1⟩).x * (12/11), (captureDir ⟨0, 0, -1⟩).z * (12/11)) ∧
      (desiredVelS sampleConfig sampleEnv doorSceneCtrl).1 ^ 2 +
        (desiredVelS sampleConfig sampleEnv doorSceneCtrl).2 ^ 2 = (12/11) ^ 2) :=
  scripted_door_scenario sampleConfig (fun _ => 0) 3 sampleEnv (1/60) 0 sampleCtrl
    doorSceneCtrl sampleBody ⟨0, 0, -1⟩ rfl rfl (by norm_num) rfl
    (by rw [captureDir_sample]; norm_num [normSq])

/-- C7 (amended): the portal target is computed by expressing the player's
world position in the origin (DoorEnd) anchor's local frame via the inverted
world matrix, zeroing the local vertical axis, and re-expressing the planar
offset in the destination (DoorStart) anchor's world frame; the teleported
body position equals that returned world-space point with `0.8` added to its
X coordinate (a door-center adjustment), the Y preserved via `keepY`, and
the linear velocity zeroed. -/
theorem portal_teleport_position (arctanM : ℚ → ℚ) (pi : ℚ)
    (endM startM : Mat4) (player startPos : V3) (s : Ctrl) (b : Body)
    (hb : s.body = some b) :
    doorTargetWorld endM startM player =
      applyMatrix4 startM
        ⟨(applyMatrix4 (mat4Invert endM) player).x, 0,
         (applyMatrix4 (mat4Invert endM) player).z⟩ ∧
    ∃ b', (onTeleport (doorTeleportDetail arctanM pi endM startM player startPos)
        s).body = some b' ∧
      b'.pos = ⟨(doorTargetWorld endM startM player).x + 0.8, b.pos.y,
                (doorTargetWorld endM startM player).z⟩ ∧
      b'.linvel = ⟨0, 0, 0⟩ := by
  refine ⟨rfl, ?_⟩
  simp [onTeleport, hb, doorTeleportDetail]

theorem portal_teleport_position_witness :
    doorTargetWorld 1 1 ⟨1, 2, 3⟩ =
      applyMatrix4 1
        ⟨(applyMatrix4 (mat4Invert 1) ⟨1, 2, 3⟩).x, 0,
         (applyMatrix4 (mat4Invert 1) ⟨1, 2, 3⟩).z⟩ ∧
    ∃ b', (onTeleport (doorTeleportDetail (fun _ => 0) 3 1 1 ⟨1, 2, 3⟩ ⟨0, 0, 0⟩)
        sampleCtrl).body = some b' ∧
      b'.pos = ⟨(doorTargetWorld 1 1 ⟨1, 2, 3⟩).x + 0.8, sampleBody.pos.y,
                (doorTargetWorld 1 1 ⟨1, 2, 3⟩).z⟩ ∧
      b'.linvel = ⟨0, 0, 0⟩ :=
  portal_teleport_position (fun _ => 0) 3 1 1 ⟨1, 2, 3⟩ ⟨0, 0, 0⟩ sampleCtrl
    sampleBody rfl

/-- C7 counterexample: with both anchor matrices the identity and the player
at `(1, 2, 3)`, the mapped world point is `(1, 0, 3)` but the teleported
body lands at X `= 1 + 0.8 = 9/5`, so the body position does not equal the
returned world-space point exactly. -/
theorem portal_position_exact_cex :
    doorTargetWorld 1 1 ⟨1, 2, 3⟩ = ⟨1, 0, 3⟩ ∧
    (∃ b', (onTeleport (doorTeleportDetail (fun _ => 0) 3 1 1 ⟨1, 2, 3⟩ ⟨0, 0, 0⟩)
        sampleCtrl).body = some b' ∧
      b'.pos.x = 9/5 ∧ b'.pos.x ≠ (doorTargetWorld 1 1 ⟨1, 2, 3⟩).x) := by
  have htw : doorTargetWorld 1 1 ⟨1, 2, 3⟩ = ⟨1, 0, 3⟩ := by
    unfold doorTargetWorld
    rw [mat4Invert_one]
    simp [applyMatrix4_one]
  have hsb : sampleCtrl.body = some sampleBody := rfl
  refine ⟨htw, ⟨{ sampleBody with
      linvel := ⟨0, 0, 0⟩
      pos := ⟨9/5, sampleBody.pos.y, 3⟩ }, ?_, by norm_num, ?_⟩⟩
  · simp [onTeleport, doorTeleportDetail, hsb, htw]
    norm_num
  · rw [htw]
    norm_num

/-- C8 (amended): the facing yaw is `atan2` (in the horizontal plane) of the
direction from the point offset from the destination anchor along the world
X axis — by the player's measured planar distance `d` from the origin anchor
— toward the destination anchor; that direction is `(d, 0, 0)`, so the yaw
is `pi/2` whenever `d > 0`. When `d = 0` the direction is zero-length and
there is no guard: `normalize` leaves the zero vector unchanged, the yaw is
`atan2(0,0) = 0`, and the teleport applies it unconditionally instead of
keeping the current camera yaw. -/
theorem portal_yaw_semantics (arctanM : ℚ → ℚ) (pi : ℚ)
    (endM startM : Mat4) (player startPos : V3) (s : Ctrl) (b : Body)
    (hb : s.body = some b) :
    0 ≤ doorPlayerDist endM player ∧
    (doorYaw arctanM pi endM player startPos =
      jsAtan2 arctanM pi
        (vnormalize ⟨doorPlayerDist endM player, 0, 0⟩).x
        (vnormalize ⟨doorPlayerDist endM player, 0, 0⟩).z) ∧
    (0 < doorPlayerDist endM player →
      doorYaw arctanM pi endM player startPos = pi / 2) ∧
    (doorPlayerDist endM player = 0 →
      doorYaw arctanM pi endM player startPos = 0) ∧
    knownYaw ((onTeleport (doorTeleportDetail arctanM pi endM startM player
        startPos) s).camRot) =
      some (doorYaw arctanM pi endM player startPos) := by
  refine ⟨doorPlayerDist_nonneg endM player,
    doorYaw_eq arctanM pi endM player startPos,
    doorYaw_pos_dist arctanM pi endM player startPos,
    doorYaw_zero_dist arctanM pi endM player startPos, ?_⟩
  simp [onTeleport, hb, doorTeleportDetail, knownYaw]

theorem portal_yaw_semantics_witness :
    0 ≤ doorPlayerDist 1 ⟨3, 0, 4⟩ ∧
    (doorYaw (fun _ => 0) 3 1 ⟨3, 0, 4⟩ ⟨2, 0, 0⟩ =
      jsAtan2 (fun _ => 0) 3
        (vnormalize ⟨doorPlayerDist 1 ⟨3, 0, 4⟩, 0, 0⟩).x
        (vnormalize ⟨doorPlayerDist 1 ⟨3, 0, 4⟩, 0, 0⟩).z) ∧
    (0 < doorPlayerDist 1 ⟨3, 0, 4⟩ →
      doorYaw (fun _ => 0) 3 1 ⟨3, 0, 4⟩ ⟨2, 0, 0⟩ = 3 / 2) ∧
    (doorPlayerDist 1 ⟨3, 0, 4⟩ = 0 →
      doorYaw (fun _ => 0) 3 1 ⟨3, 0, 4⟩ ⟨2, 0, 0⟩ = 0) ∧
    knownYaw ((onTeleport (doorTeleportDetail (fun _ => 0) 3 1 1 ⟨3, 0, 4⟩
        ⟨2, 0, 0⟩) sampleCtrl).camRot) =
      some (doorYaw (fun _ => 0) 3 1 ⟨3, 0, 4⟩ ⟨2, 0, 0⟩) :=
  portal_yaw_semantics (fun _ => 0) 3 1 1 ⟨3, 0, 4⟩ ⟨2, 0, 0⟩ sampleCtrl
    sampleBody rfl

/-- C8 counterexample: with the origin anchor matrix the identity and the
player exactly above the anchor (planar distance `0`), the direction is
zero-length, yet no fallback occurs: the computed yaw is `0` and the
teleport overwrites the camera yaw (previously `1`) with `0` instead of
keeping the current yaw. -/
theorem portal_yaw_guard_cex :
    doorPlayerDist 1 ⟨0, 5, 0⟩ = 0 ∧
    knownYaw sampleCtrl.camRot = some 1 ∧
    knownYaw ((onTeleport (doorTeleportDetail (fun _ => 0) 3 1 1 ⟨0, 5, 0⟩
        ⟨2, 0, 0⟩) sampleCtrl).camRot) = some 0 ∧
    (some (0:ℚ)) ≠ some (1:ℚ) := by
  have hd : doorPlayerDist 1 ⟨0, 5, 0⟩ = 0 := by
    unfold doorPlayerDist
    rw [mat4Invert_one, applyMatrix4_one]
    dsimp only
    have h1 : (0:ℚ) * 0 + 0 * 0 = 0 * 0 := by ring
    unfold qsqrt
    rw [h1, Rat.sqrt_eq]
    simp
  refine ⟨hd, rfl, ?_, by simp⟩
  have hy : doorYaw (fun _ => 0) 3 1 ⟨0, 5, 0⟩ ⟨2, 0, 0⟩ = 0 :=
    doorYaw_zero_dist (fun _ => 0) 3 1 ⟨0, 5, 0⟩ ⟨2, 0, 0⟩ hd
  simp [onTeleport, sampleCtrl, doorTeleportDetail, knownYaw, hy]

theorem footstep_edge_semantics_witness :
    ¬(Foot.right ∈ stepEvents 3 1 (bobPhaseStep 3 (1/2) 1 (1/10) 1) ∧
      Foot.left ∈ stepEvents 3 1 (bobPhaseStep 3 (1/2) 1 (1/10) 1)) ∧
    (crossedB 1 (bobPhaseStep 3 (1/2) 1 (1/10) 1) 0 = true ↔
      (2:ℚ) * 3 ≤ 1 + 1/2 * 2 * 3 * (1/10)) ∧
    (crossedB 1 (bobPhaseStep 3 (1/2) 1 (1/10) 1) 3 = true ↔
      ((1:ℚ) < 3 ∧ (3:ℚ) ≤ 1 + 1/2 * 2 * 3 * (1/10))) :=
  footstep_edge_semantics 3 1 (1/2) 1 (1/10) (by norm_num) (by norm_num)
    (by norm_num) (by norm_num) (by norm_num) (by norm_num) (by norm_num)

/-- C2: on every tick, each horizontal velocity axis is blended toward the
desired velocity by asymmetric rate limiting: the rate is the acceleration
constant when the target's magnitude exceeds the current value's magnitude
and the deceleration constant otherwise, and the per-axis velocity change is
clamped to `rate * delta` (with the full step `rate * delta` taken toward
the target whenever the gap exceeds it). -/
theorem moveTowards_asymmetric_rate_clamp (a d δ c t : ℚ)
    (ha : 0 ≤ a) (hd : 0 ≤ d) (hδ : 0 ≤ δ) :
    |moveTowards a d δ c t - c| ≤ (if |c| < |t| then a else d) * δ ∧
    (|t - c| ≤ (if |c| < |t| then a else d) * δ → moveTowards a d δ c t = t) ∧
    ((if |c| < |t| then a else d) * δ < |t - c| →
      moveTowards a d δ c t - c =
        jsSign (t - c) * ((if |c| < |t| then a else d) * δ)) := by
  set r := (if |c| < |t| then a else d) with hr
  have hrate : 0 ≤ r := by rw [hr]; split <;> assumption
  have hrd : 0 ≤ r * δ := mul_nonneg hrate hδ
  rw [moveTowards_eq, ← hr]
  split_ifs with hreach
  · refine ⟨hreach, fun _ => rfl, fun hlt => absurd hreach (not_le.mpr hlt)⟩
  · push_neg at hreach
    have hne : t - c ≠ 0 := by
      intro h0
      rw [h0, abs_zero] at hreach
      exact absurd hreach (not_lt.mpr hrd)
    have hsign : |jsSign (t - c)| = 1 := by
      rcases lt_or_gt_of_ne hne with h | h
      · rw [jsSign_of_neg h]; norm_num
      · rw [jsSign_of_pos h]; norm_num
    constructor
    · rw [add_sub_cancel_left, abs_mul, hsign, one_mul, abs_of_nonneg hrd]
    · exact ⟨fun hle => absurd hle (not_le.mpr hreach),
        fun _ => by rw [add_sub_cancel_left]⟩

theorem moveTowards_asymmetric_rate_clamp_witness :
    |moveTowards 18 22 (1/60) 0 2 - 0| ≤ (if |(0:ℚ)| < |(2:ℚ)| then 18 else 22) * (1/60) ∧
    (|(2:ℚ) - 0| ≤ (if |(0:ℚ)| < |(2:ℚ)| then 18 else 22) * (1/60) →
      moveTowards 18 22 (1/60) 0 2 = 2) ∧
    ((if |(0:ℚ)| < |(2:ℚ)| then 18 else 22) * (1/60) < |(2:ℚ) - 0| →
      moveTowards 18 22 (1/60) 0 2 - 0 =
        jsSign (2 - 0) * ((if |(0:ℚ)| < |(2:ℚ)| then 18 else 22) * (1/60))) :=
  moveTowards_asymmetric_rate_clamp 18 22 (1/60) 0 2
    (by norm_num) (by norm_num) (by norm_num)

/-- C3: for all `delta ≥ 0` (and the nonnegative rate constants), the
per-axis velocity blending step never overshoots the desired velocity: the
updated value is never farther from the target than the previous value, and
when the remaining gap is within `rate * delta` the target is reached
exactly. -/
theorem moveTowards_monotone_no_overshoot (a d δ c t : ℚ)
    (ha : 0 ≤ a) (hd : 0 ≤ d) (hδ : 0 ≤ δ) :
    |moveTowards a d δ c t - t| ≤ |c - t| ∧
    (|c - t| ≤ (if |c| < |t| then a else d) * δ → moveTowards a d δ c t = t) := by
  set r := (if |c| < |t| then a else d) with hr
  have hrate : 0 ≤ r := by rw [hr]; split <;> assumption
  have hrd : 0 ≤ r * δ := mul_nonneg hrate hδ
  have habs : |c - t| = |t - c| := abs_sub_comm c t
  rw [moveTowards_eq, ← hr]
  split_ifs with hreach
  · simp [abs_nonneg]
  · push_neg at hreach
    rw [habs]
    constructor
    · rcases lt_trichotomy (t - c) 0 with h | h | h
      · rw [jsSign_of_neg h]
        rw [abs_of_neg h] at hreach ⊢
        have h1 : c + -1 * (r * δ) - t = -(t - c) - r * δ := by ring
        rw [h1, abs_of_nonneg (by linarith)]
        linarith
      · exact absurd hreach (by rw [h, abs_zero]; exact not_lt.mpr hrd)
      · rw [jsSign_of_pos h]
        rw [abs_of_pos h] at hreach ⊢
        have h1 : c + 1 * (r * δ) - t = -((t - c) - r * δ) := by ring
        rw [h1, abs_neg, abs_of_nonneg (by linarith)]
        linarith
    · intro hle
      exact absurd hle (not_le.mpr hreach)

theorem moveTowards_monotone_no_overshoot_witness :
    |moveTowards 18 22 (1/60) 0 2 - 2| ≤ |(0:ℚ) - 2| ∧
    (|(0:ℚ) - 2| ≤ (if |(0:ℚ)| < |(2:ℚ)| then 18 else 22) * (1/60) →
      moveTowards 18 22 (1/60) 0 2 = 2) :=
  moveTowards_monotone_no_overshoot 18 22 (1/60) 0 2
    (by norm_num) (by norm_num) (by norm_num)

end Achroma
